import Mathlib

/-!
Shallow embedding of the Live-Translate pipeline (fiofai/Live-Translate).

The embedding follows the Python source:
* `src/translator.py`  — `Translator.translate`: per-language provider chain
  DeepL → Microsoft → LibreTranslate with fall-through on `None`, original-text
  fallback, a per-language `try/except`, and a 0.5 s rate-limit sleep after
  each language of the loop.
* `src/main.py`        — `LiveTranslator._transcribe_thread_func`: the speech
  segmenter (buffer duration / idle-time emission rule, RMS silence gate).
* `src/tts_engine.py`  — `TTSEngine.synthesize` / `synthesize_with_voice_clone`
  / `synthesize_multiple`: voice-clone-first synthesis with generic fallback.
* `src/streamer.py`    — `LiveKitStreamer.push_audio` / `push_audio_multiple`.
* `src/main.py`        — `LiveTranslator._process_tts`: the synthesis stage.

External services (translation providers, the voice-profile store, the TTS
backends) are modelled as oracle functions carried in environment structures;
a `none` / empty result stands for the Python `None` / empty-array failure
value that the corresponding wrapper returns after catching its exceptions.
Machine floats are modelled as rationals.
-/

namespace LiveTranslate

/-- The three external translation providers of `src/translator.py`. -/
inductive TProvider
  | deepl
  | microsoft
  | libre
deriving DecidableEq, Repr

/-- The value of the `service_used` local of `Translator.translate`:
`unknown` is the initial `"未知"`, `fallbackOriginal` is `"失败-使用原文"`
(all services failed, original text used). -/
inductive Service
  | unknown
  | deepl
  | microsoft
  | libre
  | fallbackOriginal
deriving DecidableEq, Repr

/-- Environment of `Translator.translate`: the availability flags and API
keys checked by the chain, one oracle per provider (`none` models the
`None` the Python wrapper returns on any failure, since `_translate_deepl`
/ `_translate_microsoft` / `_translate_libre` catch all their exceptions),
and `raisesAt text lang`, which models an unexpected exception inside the
per-language `try` body.  The provider calls themselves cannot raise (each
catches internally), so the only raise points are the statements around the
chain; we model a raise as occurring at the logging call after the chain,
which is caught by the `except` that assigns the original text. -/
structure TransEnv where
  deeplAvailable : Bool
  deeplKey : Bool
  msAvailable : Bool
  msKey : Bool
  libreAvailable : Bool
  deepl : String → String → Option String
  ms : String → String → Option String
  libre : String → String → Option String
  raisesAt : String → String → Bool

/-- The provider chain of `Translator.translate` for one language:
DeepL (if available and keyed) → Microsoft (if the running result is still
`None`) → LibreTranslate (likewise).  Returns the chain result, the
`service_used` value, and the list of providers actually invoked.
`service_used` is only updated under Python's truthiness test
`if translation:`, i.e. when the provider returned a non-empty string. -/
def translateChain (env : TransEnv) (text lang : String) :
    Option String × Service × List TProvider :=
  let s1 : Option String × Service × List TProvider :=
    if env.deeplAvailable && env.deeplKey then
      match env.deepl text lang with
      | some s => (some s, if s ≠ "" then Service.deepl else Service.unknown, [TProvider.deepl])
      | none => (none, Service.unknown, [TProvider.deepl])
    else (none, Service.unknown, [])
  let s2 : Option String × Service × List TProvider :=
    if s1.1 = none && env.msAvailable && env.msKey then
      match env.ms text lang with
      | some s =>
          (some s, if s ≠ "" then Service.microsoft else s1.2.1, s1.2.2 ++ [TProvider.microsoft])
      | none => (none, s1.2.1, s1.2.2 ++ [TProvider.microsoft])
    else s1
  if s2.1 = none && env.libreAvailable then
    match env.libre text lang with
    | some s =>
        (some s, if s ≠ "" then Service.libre else s2.2.1, s2.2.2 ++ [TProvider.libre])
    | none => (none, s2.2.1, s2.2.2 ++ [TProvider.libre])
  else s2

/-- The entry recorded for one language when no unexpected exception occurs:
if the whole chain produced `None`, the original text is used and the result
is flagged `fallbackOriginal` (`service_used = "失败-使用原文"`). -/
def translateEntry (env : TransEnv) (text lang : String) : String × Service :=
  match translateChain env text lang with
  | (none, _, _) => (text, Service.fallbackOriginal)
  | (some s, svc, _) => (s, svc)

/-- The providers invoked for one language. -/
def chainTrace (env : TransEnv) (text lang : String) : List TProvider :=
  (translateChain env text lang).2.2

/-- The value stored in `translations[lang]` by the loop body of
`Translator.translate`, including the `except` branch that stores the
original text when the body raises. -/
def translateBody (env : TransEnv) (text lang : String) : String :=
  if env.raisesAt text lang then text else (translateEntry env text lang).1

/-- Embedding of `Translator.translate`: empty (falsy) text returns the empty dict before
any translation work; otherwise one entry is recorded per requested target
language.  The dict is modelled as an association list in loop order. -/
def translate (env : TransEnv) (text : String) (targets : List String) :
    List (String × String) :=
  if text = "" then [] else targets.map fun lang => (lang, translateBody env text lang)

/-- All providers contacted by one call of `Translator.translate`. -/
def translateTraceAll (env : TransEnv) (text : String) (targets : List String) :
    List TProvider :=
  if text = "" then [] else (targets.map fun lang => chainTrace env text lang).flatten

/-- The `time.sleep(0.5)` executed after each language of the loop. -/
def rateLimitDelay : ℚ := 1/2

/-- Timed semantics of the translation loop: the loop body for each language
runs at the current clock, then the 0.5 s rate-limit sleep advances the
clock before the next language.  Provider-call time is not modelled (zero);
only the sleeps move the clock.  Each result entry records the clock value
at which that language's entry was computed. -/
def translateTimedAux (env : TransEnv) (text : String) :
    ℚ → List String → List (String × String × ℚ)
  | _, [] => []
  | clock, lang :: rest =>
      (lang, translateBody env text lang, clock) ::
        translateTimedAux env text (clock + rateLimitDelay) rest

/-- Timed version of `Translator.translate` (same entries, plus the clock at
which each entry was computed). -/
def translateTimed (env : TransEnv) (text : String) (targets : List String) :
    List (String × String × ℚ) :=
  if text = "" then [] else translateTimedAux env text 0 targets

/-- Clock time at which the entry of language `lang` was computed. -/
def finishTimeOf (lang : String) (xs : List (String × String × ℚ)) : Option ℚ :=
  (xs.find? fun p => p.1 == lang).map fun p => p.2.2

/-! ## Speech segmenter (`LiveTranslator._transcribe_thread_func`, src/main.py)

The thread's loop state is the local audio buffer (a list of chunks, each a
sample array) and `last_transcription_time`.  Each arrival of an audio chunk
at wall time `t` appends it to the buffer, computes the buffered duration
`d = len(concat(buffer)) / SAMPLE_RATE`, and closes (emits) the buffer iff
`d >= min_audio_length and (d >= max_audio_length or t - last >= 3.0)`.
On emission the RMS gate `rms > silence_threshold` decides whether the
utterance is forwarded to transcription; buffer and timer are reset either
way.  `SAMPLE_RATE` is imported from a config module whose definition is not
in the sources, so the sample rate is kept as a parameter `rate`.  The gate
`sqrt(mean(x^2)) > thr` is modelled by the equivalent square-free comparison
`thr^2 < mean(x^2)` (both sides of the original are non-negative and
squaring is monotone there), keeping everything rational. -/

/-- The threshold locals of `_transcribe_thread_func`:
`min_audio_length = 1.0`, `max_audio_length = 10.0`, the hardcoded idle
bound `3.0` of `time_since_last >= 3.0`, and `silence_threshold = 0.01`. -/
structure SegParams where
  minLen : ℚ
  maxLen : ℚ
  idleGap : ℚ
  silenceThreshold : ℚ
deriving DecidableEq, Repr

/-- The default thresholds of the source. -/
def segDefaults : SegParams := ⟨1, 10, 3, 1/100⟩

/-- Loop state: `audio_buffer` and `last_transcription_time`. -/
structure SegState where
  buffer : List (List ℚ)
  lastTime : ℚ
deriving DecidableEq, Repr

/-- A closed (emitted) utterance buffer: its concatenated samples, the wall
time and buffered duration at emission, and whether it passed the RMS
silence gate and was forwarded to `_transcribe_audio`. -/
structure Emission where
  samples : List ℚ
  time : ℚ
  duration : ℚ
  forwarded : Bool
deriving DecidableEq, Repr

/-- Total number of samples in the buffer (`len(np.concatenate(buffer))`). -/
def totalSamples (buf : List (List ℚ)) : ℕ :=
  (buf.map List.length).sum

/-- The source's `buffer_seconds = len(np.concatenate(audio_buffer)) / SAMPLE_RATE`. -/
def bufDuration (rate : ℚ) (buf : List (List ℚ)) : ℚ :=
  (totalSamples buf : ℚ) / rate

/-- The mean of the squared samples, `np.mean(audio_data ** 2)` (the square
of the RMS computed by the source). -/
def meanSq (xs : List ℚ) : ℚ :=
  (xs.map fun x => x ^ 2).sum / (xs.length : ℚ)

/-- One iteration of `_transcribe_thread_func` in which a chunk arrives at
wall time `t`: append, test the emission condition, and on emission apply
the RMS gate and reset buffer and timer. -/
def segStep (p : SegParams) (rate : ℚ) (st : SegState) (t : ℚ) (chunk : List ℚ) :
    SegState × Option Emission :=
  let buf := st.buffer ++ [chunk]
  let d := bufDuration rate buf
  if p.minLen ≤ d ∧ (p.maxLen ≤ d ∨ p.idleGap ≤ t - st.lastTime) then
    let samples := buf.flatten
    (⟨[], t⟩, some ⟨samples, t, d, decide (p.silenceThreshold ^ 2 < meanSq samples)⟩)
  else
    (⟨buf, st.lastTime⟩, none)

/-- Run the segmenter over a sequence of chunk arrivals `(t, chunk)`,
collecting the emissions in order. -/
def segRun (p : SegParams) (rate : ℚ) :
    SegState → List (ℚ × List ℚ) → SegState × List Emission
  | st, [] => (st, [])
  | st, (t, c) :: rest =>
      let step := segStep p rate st t c
      let tail := segRun p rate step.1 rest
      (tail.1, match step.2 with | none => tail.2 | some e => e :: tail.2)

/-- Buffered duration after appending the arriving chunk — the `d` tested by
`segStep`. -/
def newDuration (rate : ℚ) (st : SegState) (chunk : List ℚ) : ℚ :=
  bufDuration rate (st.buffer ++ [chunk])

/-! ## TTS engine (`TTSEngine`, src/tts_engine.py)

`synthesize(text, lang, speaker_embedding)` tries clone synthesis first when
a profile argument is supplied, then falls back to the generic engine.  The
voice-clone store (`get_speaker_embedding` / `synthesize_speech`, imported
from a module outside the sources — the `voice_clone` compatibility layer
returns `None` from both) and the TTS backends are oracles in `TTSEnv`.
`α` is the type of the profile argument (`speaker_embedding`, which
`synthesize` passes on to `synthesize_with_voice_clone` as its `speaker_id`
parameter).  `edgeTTS` models `_synthesize_edge_tts`, which catches its
exceptions and returns an empty array on failure; `googleTTS = none` models
`_synthesize_google_tts` raising (e.g. its import failing), which
`synthesize` catches and answers with the Edge fallback.  In
`synthesize_with_voice_clone` a `None` waveform makes `len(samples)` in
`synthesize` raise `TypeError`, caught by the surrounding `except`, which
then also takes the generic path — so no exception escapes `synthesize`,
and the model below is total. -/

/-- Truncation toward zero, as in numpy's float→int cast. -/
def truncQ (x : ℚ) : ℤ :=
  if 0 ≤ x then ⌊x⌋ else ⌈x⌉

/-- The `np.int16` cast with two's-complement wraparound into `[-32768, 32768)`. -/
def toInt16 (x : ℚ) : ℤ :=
  Int.bmod (truncQ x) 65536

/-- Environment of `TTSEngine`. -/
structure TTSEnv (α : Type) where
  engineType : String
  googleClient : Bool
  embedImportOk : Bool
  cloneImportOk : Bool
  getSpeakerEmbedding : α → Option (List ℚ)
  synthesizeSpeech : String → List ℚ → Option (List ℚ)
  googleTTS : String → String → Option (List ℤ)
  edgeTTS : String → String → List ℤ

/-- Embedding of `TTSEngine._synthesize_voice_clone`: empty text, a failed import of
`synthesize_speech`, a `None` waveform, or an internal exception all yield
the empty array; otherwise the (flattened) waveform. -/
def synthVoiceClone {α : Type} (env : TTSEnv α) (text : String) (emb : List ℚ) :
    List ℚ :=
  if text = "" then []
  else if env.cloneImportOk = false then []
  else
    match env.synthesizeSpeech text emb with
    | none => []
    | some w => w

/-- Embedding of `TTSEngine.synthesize_with_voice_clone`: look the embedding up by the
given profile argument, clone-synthesize, and scale the waveform to int16
(`(waveform * 32767).astype(np.int16)`).  Returns `none` on every failure
path (failed import, no embedding, empty waveform, internal exception). -/
def synthWithVoiceClone {α : Type} (env : TTSEnv α) (text : String) (speakerId : α) :
    Option (List ℤ) :=
  if env.embedImportOk = false then none
  else
    match env.getSpeakerEmbedding speakerId with
    | none => none
    | some emb =>
        let waveform := synthVoiceClone env text emb
        if waveform.length = 0 then none
        else some (waveform.map fun x => toInt16 (x * 32767))

/-- The generic-engine tail of `TTSEngine.synthesize`: Google (when selected
and initialized, with the Edge fallback if it raises), else Edge TTS. -/
def ttsGeneric {α : Type} (env : TTSEnv α) (text lang : String) : List ℤ :=
  if env.engineType = "google" ∧ env.googleClient = true then
    match env.googleTTS text lang with
    | some a => a
    | none => env.edgeTTS text lang
  else env.edgeTTS text lang

/-- Embedding of `TTSEngine.synthesize`: empty text gives the empty array; a supplied
profile argument first attempts clone synthesis, whose result is returned
when non-empty, every clone failure (including the caught `TypeError` on
`len(None)`) falling back to the generic engine. -/
def synthesize {α : Type} (env : TTSEnv α) (text lang : String)
    (speakerEmbedding : Option α) : List ℤ :=
  if text = "" then []
  else
    match speakerEmbedding with
    | none => ttsGeneric env text lang
    | some sid =>
        match synthWithVoiceClone env text sid with
        | some samples =>
            if 0 < samples.length then samples else ttsGeneric env text lang
        | none => ttsGeneric env text lang

/-- Embedding of `TTSEngine.synthesize_multiple`: one synthesis per language whose text
is non-empty (Python truthiness of `if text:`). -/
def synthesizeMultiple {α : Type} (env : TTSEnv α) (texts : List (String × String))
    (spk : Option α) : List (String × List ℤ) :=
  texts.filterMap fun p =>
    if p.2 = "" then none else some (p.1, synthesize env p.2 p.1 spk)

/-! ## Streamer and the synthesis stage (src/streamer.py, src/main.py)

`LiveKitStreamer` keeps one audio queue per configured language;
`push_audio` silently drops the push when the module is not running, the
language is unknown, or the audio is empty.  `_process_tts` takes one
TranslationSet off the queue, synthesizes every language
(`synthesize_multiple(translations)` — no speaker embedding is passed), and
pushes the audio dict (`push_audio_multiple`).  The streamer state is the
complete output channel of this stage: nothing else is delivered by
`_process_tts`, and the queues hold only audio arrays. -/

/-- Streamer state: running flag and the per-language audio queues. -/
structure Streamer where
  running : Bool
  queues : List (String × List (List ℤ))
deriving DecidableEq, Repr

/-- The queue of a language (empty for unknown languages). -/
def queueOf (st : Streamer) (lang : String) : List (List ℤ) :=
  (st.queues.lookup lang).getD []

/-- Whether `lang` has a queue (`lang in self.audio_queues`). -/
def hasLang (st : Streamer) (lang : String) : Bool :=
  (st.queues.lookup lang).isSome

/-- Embedding of `LiveKitStreamer.push_audio`. -/
def pushAudio (st : Streamer) (lang : String) (audioData : List ℤ) : Streamer :=
  if st.running = false then st
  else if hasLang st lang = false then st
  else if audioData.length = 0 then st
  else { st with queues := st.queues.map fun p =>
          if p.1 = lang then (p.1, p.2 ++ [audioData]) else p }

/-- Embedding of `LiveKitStreamer.push_audio_multiple`. -/
def pushAudioMultiple (st : Streamer) (dict : List (String × List ℤ)) : Streamer :=
  dict.foldl (fun s p => pushAudio s p.1 p.2) st

/-- One iteration of `LiveTranslator._process_tts` on a dequeued
TranslationSet: synthesize all languages (no speaker embedding) and push
the audio to the streamer. -/
def processTTS {α : Type} (env : TTSEnv α) (st : Streamer)
    (translations : List (String × String)) : Streamer :=
  pushAudioMultiple st (synthesizeMultiple env translations none)

/-- A payload that could be delivered for a language: audio samples or
text.  The source pipeline only ever constructs audio payloads. -/
inductive Payload
  | audio (samples : List ℤ)
  | text (s : String)
deriving DecidableEq, Repr

/-- Everything the synthesis stage delivered for `lang` while processing
`translations`: the payloads appended to `lang`'s queue — the stage's whole
output effect for that language, audio by construction of the source. -/
def stageDeliveries {α : Type} (env : TTSEnv α) (st : Streamer)
    (translations : List (String × String)) (lang : String) : List Payload :=
  ((queueOf (processTTS env st translations) lang).drop (queueOf st lang).length).map
    Payload.audio

/-! ## Concrete instances used to instantiate or refute the claims -/

/-- DeepL and Microsoft configured and reachable; DeepL fails at translation
time, Microsoft answers, LibreTranslate would answer differently. -/
def envDeeplDownMsUp : TransEnv :=
  { deeplAvailable := true, deeplKey := true, msAvailable := true, msKey := true,
    libreAvailable := true,
    deepl := fun _ _ => none, ms := fun _ _ => some "bonjour",
    libre := fun _ _ => some "LIBRE-OUTPUT",
    raisesAt := fun _ _ => false }

/-- Every provider fails at translation time;
the attempt for `"ko"` raises an unexpected exception. -/
def envAllProvidersFail : TransEnv :=
  { deeplAvailable := true, deeplKey := true, msAvailable := true, msKey := true,
    libreAvailable := true,
    deepl := fun _ _ => none, ms := fun _ _ => none, libre := fun _ _ => none,
    raisesAt := fun _ lang => lang == "ko" }

/-- Only the keyless default configuration: LibreTranslate available but
failing; nothing raises. -/
def envLibreOnlyDown : TransEnv :=
  { deeplAvailable := false, deeplKey := false, msAvailable := false, msKey := false,
    libreAvailable := true,
    deepl := fun _ _ => none, ms := fun _ _ => none, libre := fun _ _ => none,
    raisesAt := fun _ _ => false }

/-- Real-time arrival of 12 s of continuous speech: 24 chunks, each one
sample at `SAMPLE_RATE = 2`, i.e. 0.5 s of audio per chunk, the chunk
covering audio up to second `t` arriving at wall time `t`
(`t = 0.5, 1.0, …, 12.0`).  Sample value 1 (clearly above the silence
threshold). -/
def rtEvents : List (ℚ × List ℚ) :=
  (List.range 24).map fun k => (((k : ℚ) + 1) / 2, [1])

/-- The same 12 s of continuous speech arriving in a burst, every chunk at
wall time 1 (faster than real time, e.g. pre-buffered input). -/
def burstEvents : List (ℚ × List ℚ) :=
  (List.range 24).map fun _ => ((1 : ℚ), [1])

/-- A ready voice profile whose clone synthesis succeeds; the generic Edge
engine would answer `[7]`. -/
def envCloneReady : TTSEnv String :=
  { engineType := "edge-tts", googleClient := false, embedImportOk := true,
    cloneImportOk := true,
    getSpeakerEmbedding := fun _ => some [1],
    synthesizeSpeech := fun _ _ => some [1, 2],
    googleTTS := fun _ _ => none, edgeTTS := fun _ _ => [7] }

/-- No voice profile, and a generic Edge backend that fails (returns the
empty array) for every text. -/
def envGenericDown : TTSEnv String :=
  { engineType := "edge-tts", googleClient := false, embedImportOk := true,
    cloneImportOk := true,
    getSpeakerEmbedding := fun _ => none,
    synthesizeSpeech := fun _ _ => none,
    googleTTS := fun _ _ => none, edgeTTS := fun _ _ => [] }

/-- A running streamer with one configured language and an empty queue. -/
def streamerEn : Streamer := ⟨true, [("en", [])]⟩

/-! ## Theorems -/

/-- In a map built by pairing each key with a function of itself, lookup of
a member key returns that function value. -/
lemma lookup_map_pair (f : String → String) :
    ∀ (l : List String) (x : String), x ∈ l →
      (l.map fun a => (a, f a)).lookup x = some (f x) := by
  intro l
  induction l with
  | nil => intro x hx; cases hx
  | cons a l ih =>
      intro x hx
      rcases List.mem_cons.1 hx with h | h
      · subst h; simp [List.lookup]
      · by_cases hxa : x = a
        · subst hxa; simp [List.lookup]
        · have hb : (x == a) = false := beq_eq_false_iff_ne.mpr hxa
          simpa [List.lookup, hb] using ih x h

/-- C1.  For non-empty text and any target language, with DeepL and
Microsoft both configured, if DeepL fails (returns `None`) and Microsoft
succeeds, the recorded entry is exactly Microsoft's output and the chain
stops there: the providers invoked are DeepL then Microsoft, and
LibreTranslate is never invoked. -/
theorem translate_provider_chain_short_circuit (env : TransEnv)
    (text lang out : String)
    (htext : text ≠ "")
    (hda : env.deeplAvailable = true) (hdk : env.deeplKey = true)
    (hma : env.msAvailable = true) (hmk : env.msKey = true)
    (hdf : env.deepl text lang = none)
    (hms : env.ms text lang = some out)
    (hnr : env.raisesAt text lang = false) :
    (translate env text [lang]).lookup lang = some out ∧
      chainTrace env text lang = [TProvider.deepl, TProvider.microsoft] := by
  simp [translate, translateBody, translateEntry, translateChain, chainTrace,
    htext, hda, hdk, hma, hmk, hdf, hms, hnr, List.lookup]

/-- Witness for C1 at a concrete environment. -/
theorem translate_provider_chain_short_circuit_witness :
    ("hi" : String) ≠ "" ∧
      envDeeplDownMsUp.deepl "hi" "fr" = none ∧
      envDeeplDownMsUp.ms "hi" "fr" = some "bonjour" ∧
      ((translate envDeeplDownMsUp "hi" ["fr"]).lookup "fr" = some "bonjour" ∧
        chainTrace envDeeplDownMsUp "hi" "fr" =
          [TProvider.deepl, TProvider.microsoft]) :=
  ⟨by decide, rfl, rfl,
    translate_provider_chain_short_circuit envDeeplDownMsUp "hi" "fr" "bonjour"
      (by decide) rfl rfl rfl rfl rfl rfl rfl⟩

/-- C2.  For non-empty text, the returned mapping has exactly the requested
target languages as keys, in order, and every member language gets an entry
— whatever the providers do and even when a language's attempt raises (the
environment, including its `raisesAt` oracle, is universally quantified, so
no provider failure or exception can remove or block an entry). -/
theorem translate_covers_all_targets (env : TransEnv) (text : String)
    (targets : List String) (lang : String)
    (htext : text ≠ "") (hmem : lang ∈ targets) :
    (translate env text targets).map Prod.fst = targets ∧
      (translate env text targets).lookup lang =
        some (translateBody env text lang) := by
  constructor
  · have hid : (Prod.fst ∘ fun lang => (lang, translateBody env text lang)) = id := rfl
    simp [translate, htext, List.map_map, hid]
  · simp only [translate, if_neg htext]
    exact lookup_map_pair (translateBody env text) targets lang hmem

/-- Witness for C2: all providers fail and the `"ko"` attempt raises, yet
both `"ko"` and `"en"` keep their entries (the raising language degrades to
the source text). -/
theorem translate_covers_all_targets_witness :
    ("你好" : String) ≠ "" ∧ ("ko" : String) ∈ ["en", "ko"] ∧
      ((translate envAllProvidersFail "你好" ["en", "ko"]).map Prod.fst
          = ["en", "ko"] ∧
        (translate envAllProvidersFail "你好" ["en", "ko"]).lookup "ko" =
          some (translateBody envAllProvidersFail "你好" "ko")) :=
  ⟨by decide, by decide,
    translate_covers_all_targets envAllProvidersFail "你好" ["en", "ko"] "ko"
      (by decide) (by decide)⟩

/-- C3.  For non-empty text, if the whole chain fails — each provider
returns `None` whenever invoked — and nothing else raises, the recorded
entry for the language is the original source text, and the result is
flagged as the fallback (`service_used = "失败-使用原文"`). -/
theorem translate_all_providers_fail_uses_original (env : TransEnv)
    (text lang : String)
    (htext : text ≠ "")
    (hd : env.deepl text lang = none) (hm : env.ms text lang = none)
    (hl : env.libre text lang = none)
    (hnr : env.raisesAt text lang = false) :
    (translate env text [lang]).lookup lang = some text ∧
      (translateEntry env text lang).2 = Service.fallbackOriginal := by
  obtain ⟨da, dk, ma, mk, la, fd, fm, fl, fr⟩ := env
  simp only at hd hm hl hnr
  cases da <;> cases dk <;> cases ma <;> cases mk <;> cases la <;>
    simp [translate, translateBody, translateEntry, translateChain,
      htext, hd, hm, hl, hnr, List.lookup]

/-- Witness for C3 at a concrete environment (the keyless default
configuration whose LibreTranslate call fails). -/
theorem translate_all_providers_fail_uses_original_witness :
    ("你好" : String) ≠ "" ∧
      envLibreOnlyDown.libre "你好" "en" = none ∧
      ((translate envLibreOnlyDown "你好" ["en"]).lookup "en" = some "你好" ∧
        (translateEntry envLibreOnlyDown "你好" "en").2 =
          Service.fallbackOriginal) :=
  ⟨by decide, rfl,
    translate_all_providers_fail_uses_original envLibreOnlyDown "你好" "en"
      (by decide) rfl rfl rfl rfl⟩

/-- C10.  Empty (falsy) input text returns the empty mapping and contacts no
provider at all. -/
theorem translate_empty_text_no_work (env : TransEnv) (targets : List String) :
    translate env "" targets = [] ∧ translateTraceAll env "" targets = [] := by
  simp [translate, translateTraceAll]

/-- Closed form of the timed translation loop: the `k`-th language's entry
is computed at `c + k · 0.5 s`. -/
lemma translateTimedAux_eq (env : TransEnv) (text : String) :
    ∀ (ts : List String) (c : ℚ),
      translateTimedAux env text c ts =
        ts.mapIdx fun k lang =>
          (lang, translateBody env text lang, c + k * rateLimitDelay) := by
  intro ts
  induction ts with
  | nil => intro c; simp [translateTimedAux]
  | cons l ts ih =>
      intro c
      have hfe : (fun (k : ℕ) (lang : String) =>
            (lang, translateBody env text lang,
              c + rateLimitDelay + (k : ℚ) * rateLimitDelay)) =
          fun (k : ℕ) (lang : String) =>
            (lang, translateBody env text lang,
              c + ((k : ℕ) + 1 : ℕ) * rateLimitDelay) := by
        funext k lang
        have harith : c + rateLimitDelay + (k : ℚ) * rateLimitDelay =
            c + (((k : ℕ) + 1 : ℕ) : ℚ) * rateLimitDelay := by
          push_cast
          ring
        rw [harith]
      simp only [translateTimedAux, List.mapIdx_cons, ih (c + rateLimitDelay), hfe,
        Nat.cast_zero, zero_mul, add_zero]

/-- C9, refuted on the code.  Concrete run: translating `"hi"` to `["en",
"ko"]` (all providers down, so each entry is the fallback original text),
the entry for `"ko"` is computed at clock 0.5 — after the rate-limit sleep
that follows the `"en"` attempt — whereas translating to `["ko"]` alone it
is computed at clock 0.  The languages are processed in one sequential
loop, so the fixed rate-limit delay does apply across languages, and a
language's work does delay every later language, contrary to the claim of
independent concurrent per-language tasks. -/
theorem translate_rate_limit_delay_crosses_languages :
    finishTimeOf "ko" (translateTimed envLibreOnlyDown "hi" ["en", "ko"]) =
        some (1/2 : ℚ) ∧
      finishTimeOf "ko" (translateTimed envLibreOnlyDown "hi" ["ko"]) =
        some (0 : ℚ) ∧
      (1/2 : ℚ) ≠ 0 := by
  have h1 : (("en" : String) == "ko") = false := by decide
  have h2 : (("ko" : String) == "ko") = true := by decide
  refine ⟨?_, ?_, by norm_num⟩ <;>
    norm_num [translateTimed, translateTimedAux, finishTimeOf, rateLimitDelay,
      translateBody, translateEntry, translateChain, envLibreOnlyDown, List.find?,
      h1, h2]

/-- C9 as amended.  For non-empty text the translation loop is sequential:
the `k`-th target language's entry is computed at clock `k · 0.5` — each
language's processing, including its 0.5 s rate-limit sleep, delays all
later languages — while the value of each entry depends only on that
language itself, so one language's provider failures or exception never
change another language's entry. -/
theorem translate_sequential_timing (env : TransEnv) (text : String)
    (targets : List String) (htext : text ≠ "") :
    translateTimed env text targets =
      targets.mapIdx fun k lang =>
        (lang, translateBody env text lang, (k : ℚ) * rateLimitDelay) := by
  have hfe : (fun (k : ℕ) (lang : String) =>
        (lang, translateBody env text lang, (0 : ℚ) + (k : ℚ) * rateLimitDelay)) =
      fun (k : ℕ) (lang : String) =>
        (lang, translateBody env text lang, (k : ℚ) * rateLimitDelay) := by
    funext k lang
    rw [zero_add]
  rw [translateTimed, if_neg htext, translateTimedAux_eq, hfe]

/-- Witness for C9's amended statement at a concrete input. -/
theorem translate_sequential_timing_witness :
    ("hi" : String) ≠ "" ∧
      translateTimed envLibreOnlyDown "hi" ["en", "ko"] =
        ["en", "ko"].mapIdx fun k lang =>
          (lang, translateBody envLibreOnlyDown "hi" lang,
            (k : ℚ) * rateLimitDelay) :=
  ⟨by decide,
    translate_sequential_timing envLibreOnlyDown "hi" ["en", "ko"] (by decide)⟩

/-- C4.  A chunk arrival closes (emits) the buffer exactly when the spec's
rule holds of the new buffered duration `d` and the idle time: `d ≥ 10`, or
`d ≥ 1` and idle `≥ 3`.  In particular the code's condition
`d ≥ min ∧ (d ≥ max ∨ idle ≥ gap)` coincides with the spec's rule at the
default thresholds. -/
theorem segmenter_emits_iff_spec_rule (rate : ℚ) (st : SegState) (t : ℚ)
    (chunk : List ℚ) :
    (segStep segDefaults rate st t chunk).2.isSome = true ↔
      ((10 : ℚ) ≤ newDuration rate st chunk ∨
        ((1 : ℚ) ≤ newDuration rate st chunk ∧ (3 : ℚ) ≤ t - st.lastTime)) := by
  have key : ((1 : ℚ) ≤ newDuration rate st chunk ∧
        ((10 : ℚ) ≤ newDuration rate st chunk ∨ (3 : ℚ) ≤ t - st.lastTime)) ↔
      ((10 : ℚ) ≤ newDuration rate st chunk ∨
        ((1 : ℚ) ≤ newDuration rate st chunk ∧ (3 : ℚ) ≤ t - st.lastTime)) := by
    constructor
    · rintro ⟨h1, h2 | h3⟩
      · exact Or.inl h2
      · exact Or.inr ⟨h1, h3⟩
    · rintro (h2 | ⟨h1, h3⟩)
      · exact ⟨by linarith, Or.inl h2⟩
      · exact ⟨h1, Or.inr h3⟩
  simp only [segStep, segDefaults, newDuration] at key ⊢
  split
  case isTrue h => simpa using key.1 h
  case isFalse h => simpa using fun hr => h (key.2 hr)

set_option maxRecDepth 8000

/-- C5, refuted on the code.  Twelve seconds of continuous speech arriving
in real time (`rtEvents`) does not produce a single utterance at the 10.0 s
`max_len` cutoff: the idle-time term `t - last_transcription_time` grows
with the wall clock even while speech continues, so the condition fires
every 3 s, yielding four forwarded utterances of 3 s each, at wall times
3, 6, 9 and 12 — four emissions, none of duration 10. -/
theorem segmenter_realtime_12s_not_single_utterance :
    ((segRun segDefaults 2 ⟨[], 0⟩ rtEvents).2.map fun e =>
        (e.time, e.duration, e.forwarded))
      = [(3, 3, true), (6, 3, true), (9, 3, true), (12, 3, true)] ∧
      (segRun segDefaults 2 ⟨[], 0⟩ rtEvents).2.length = 4 := by
  refine ⟨?_, ?_⟩ <;>
    norm_num [rtEvents, List.range_succ, segRun, segStep, bufDuration,
      totalSamples, meanSq, segDefaults]

/-- C5 as amended.  When the twelve seconds of speech arrive faster than
real time (`burstEvents`: idle time stays below the 3 s gap), exactly one
utterance is emitted, when the buffered duration first reaches the 10.0 s
`max_len` cutoff, and the remaining 2 s of frames begin a new buffer. -/
theorem segmenter_burst_12s_single_cutoff_utterance :
    ((segRun segDefaults 2 ⟨[], 0⟩ burstEvents).2.map fun e =>
        (e.time, e.duration, e.forwarded))
      = [(1, 10, true)] ∧
      bufDuration 2 (segRun segDefaults 2 ⟨[], 0⟩ burstEvents).1.buffer = 2 := by
  refine ⟨?_, ?_⟩ <;>
    norm_num [burstEvents, List.range_succ, segRun, segStep, bufDuration,
      totalSamples, meanSq, segDefaults]

/-- C6.  Whenever a chunk arrival closes the buffer into an emission whose
mean squared sample value is below the squared silence threshold (i.e. RMS
< 0.01), the utterance is not forwarded to transcription, and the buffer
and the timer are still reset. -/
theorem segmenter_silent_utterance_dropped (rate : ℚ) (st : SegState) (t : ℚ)
    (chunk : List ℚ) (st' : SegState) (e : Emission)
    (hstep : segStep segDefaults rate st t chunk = (st', some e))
    (hsilent : meanSq e.samples < ((1 : ℚ)/100) ^ 2) :
    e.forwarded = false ∧ st'.buffer = [] ∧ st'.lastTime = t := by
  simp only [segStep, segDefaults] at hstep
  split at hstep
  case isFalse hc =>
    injection hstep with h1 h2
    exact Option.noConfusion h2
  case isTrue hc =>
    injection hstep with h1 h2
    injection h2 with h2
    subst h1
    subst h2
    refine ⟨?_, rfl, rfl⟩
    exact decide_eq_false (lt_asymm hsilent)

/-- A concrete silent emission: three zero samples at rate 1 close a 3 s
buffer at wall time 5 with the idle gap met; RMS is 0. -/
lemma segStep_silent_example :
    segStep segDefaults 1 ⟨[], 0⟩ 5 [0, 0, 0] =
      (⟨[], 5⟩, some ⟨[0, 0, 0], 5, 3, false⟩) := by
  norm_num [segStep, bufDuration, totalSamples, meanSq, segDefaults]

/-- The concrete silent emission is below the squared silence threshold. -/
lemma meanSq_silent_example : meanSq [0, 0, 0] < ((1 : ℚ)/100) ^ 2 := by
  norm_num [meanSq]

/-- Witness for C6 at the concrete silent emission. -/
theorem segmenter_silent_utterance_dropped_witness :
    segStep segDefaults 1 ⟨[], 0⟩ 5 [0, 0, 0] =
        (⟨[], 5⟩, some ⟨[0, 0, 0], 5, 3, false⟩) ∧
      meanSq [0, 0, 0] < ((1 : ℚ)/100) ^ 2 ∧
      ((⟨[0, 0, 0], 5, 3, false⟩ : Emission).forwarded = false ∧
        (⟨[], 5⟩ : SegState).buffer = [] ∧
        (⟨[], 5⟩ : SegState).lastTime = 5) :=
  ⟨segStep_silent_example, meanSq_silent_example,
    segmenter_silent_utterance_dropped 1 ⟨[], 0⟩ 5 [0, 0, 0] ⟨[], 5⟩
      ⟨[0, 0, 0], 5, 3, false⟩ segStep_silent_example meanSq_silent_example⟩

/-- A successful clone synthesis always carries at least one sample (the
empty-waveform case returns `none` instead), so the `len(samples) > 0`
test in `synthesize` always accepts it. -/
lemma synthWithVoiceClone_some_pos {α : Type} (env : TTSEnv α) (text : String)
    (sid : α) (s : List ℤ) (h : synthWithVoiceClone env text sid = some s) :
    0 < s.length := by
  unfold synthWithVoiceClone at h
  split at h
  · exact Option.noConfusion h
  · split at h
    · exact Option.noConfusion h
    · dsimp only at h
      split at h
      · exact Option.noConfusion h
      · rename_i hlen
        injection h with h
        subst h
        rw [List.length_map]
        exact Nat.pos_of_ne_zero hlen

/-- C7.  For non-empty text with a supplied profile argument, `synthesize`
attempts clone synthesis first and returns its samples whenever it
succeeds; on any clone failure — including a profile whose embedding lookup
yields `none` (pending / not found), a failed synthesis, or the caught
`TypeError` on the `None` result — the generic engine's output is returned
instead.  The second conjunct records that a `none` embedding lookup is one
of the clone-failure cases.  The embedding is total — every failure path of
the source is caught and mapped to the generic fallback — so no exception
reaches the caller of `synthesize`. -/
theorem synthesize_prefers_clone_generic_fallback {α : Type} (env : TTSEnv α)
    (text lang : String) (sid : α) (htext : text ≠ "") :
    (synthesize env text lang (some sid) =
        match synthWithVoiceClone env text sid with
        | some s => s
        | none => ttsGeneric env text lang) ∧
      (env.getSpeakerEmbedding sid = none →
        synthWithVoiceClone env text sid = none) := by
  constructor
  · cases hc : synthWithVoiceClone env text sid with
    | none => simp [synthesize, htext, hc]
    | some s =>
        have hlen := synthWithVoiceClone_some_pos env text sid s hc
        simp [synthesize, htext, hc, hlen]
  · intro hemb
    unfold synthWithVoiceClone
    split
    · rfl
    · rw [hemb]

/-- Witness for C7 at a ready concrete profile. -/
theorem synthesize_prefers_clone_generic_fallback_witness :
    ("hello" : String) ≠ "" ∧
      (synthesize envCloneReady "hello" "en" (some "spk") =
          match synthWithVoiceClone envCloneReady "hello" "spk" with
          | some s => s
          | none => ttsGeneric envCloneReady "hello" "en") ∧
      (envCloneReady.getSpeakerEmbedding "spk" = none →
        synthWithVoiceClone envCloneReady "hello" "spk" = none) :=
  ⟨by decide,
    (synthesize_prefers_clone_generic_fallback envCloneReady "hello" "en" "spk"
      (by decide)).1,
    (synthesize_prefers_clone_generic_fallback envCloneReady "hello" "en" "spk"
      (by decide)).2⟩

/-- Enqueueing onto one language's queue only changes the lookup of that
language, appending the pushed samples. -/
lemma lookup_enqueue (a : List ℤ) :
    ∀ (qs : List (String × List (List ℤ))) (l x : String),
      (qs.map fun p => if p.1 = l then (p.1, p.2 ++ [a]) else p).lookup x =
        if x = l then (qs.lookup x).map (fun q => q ++ [a]) else qs.lookup x := by
  intro qs
  induction qs with
  | nil => intro l x; split <;> simp
  | cons p qs ih =>
      intro l x
      obtain ⟨k, v⟩ := p
      simp only [List.map_cons]
      by_cases hkl : k = l
      · rw [if_pos hkl]
        by_cases hxk : x = k
        · have hxl : x = l := hxk.trans hkl
          have hb : (x == k) = true := beq_iff_eq.mpr hxk
          have hb2 : (l == k) = true := beq_iff_eq.mpr (hxl.symm.trans hxk)
          simp [List.lookup, hb, hb2, hxl]
        · have hb : (x == k) = false := beq_eq_false_iff_ne.mpr hxk
          simp [List.lookup, hb, ih]
      · rw [if_neg hkl]
        by_cases hxk : x = k
        · have hxl : ¬x = l := fun h => hkl (hxk.symm.trans h)
          have hb : (x == k) = true := beq_iff_eq.mpr hxk
          simp [List.lookup, hb, hxl]
        · have hb : (x == k) = false := beq_eq_false_iff_ne.mpr hxk
          simp [List.lookup, hb, ih]

/-- A `push_audio` call leaves the running flag unchanged. -/
lemma pushAudio_running (st : Streamer) (l : String) (a : List ℤ) :
    (pushAudio st l a).running = st.running := by
  unfold pushAudio
  split <;> try rfl
  split <;> try rfl
  split <;> rfl

/-- A `push_audio` call leaves the set of configured languages unchanged. -/
lemma hasLang_pushAudio (st : Streamer) (l : String) (a : List ℤ) (x : String) :
    hasLang (pushAudio st l a) x = hasLang st x := by
  unfold pushAudio
  split
  · rfl
  · split
    · rfl
    · split
      · rfl
      · simp only [hasLang, lookup_enqueue]
        split
        · simp [Option.isSome_map]
        · rfl

/-- Effect of one `push_audio` on one language's queue: the samples are
appended exactly when the streamer is running, the pushed language is
configured, the audio is non-empty, and it is this language's queue. -/
lemma queueOf_pushAudio (st : Streamer) (l : String) (a : List ℤ) (x : String) :
    queueOf (pushAudio st l a) x =
      if st.running = true ∧ hasLang st l = true ∧ a.length ≠ 0 ∧ x = l
      then queueOf st x ++ [a] else queueOf st x := by
  unfold pushAudio
  split
  case isTrue hrun =>
    rw [if_neg]
    rintro ⟨h1, -, -, -⟩
    rw [hrun] at h1
    exact Bool.noConfusion h1
  case isFalse hrun =>
    have hrun' : st.running = true := by
      cases h : st.running
      · exact absurd h hrun
      · rfl
    split
    case isTrue hl =>
      rw [if_neg]
      rintro ⟨-, h2, -, -⟩
      rw [h2] at hl
      exact Bool.noConfusion hl
    case isFalse hl =>
      have hl' : hasLang st l = true := by
        cases h : hasLang st l
        · exact absurd h hl
        · rfl
      split
      case isTrue hlen =>
        rw [if_neg]
        rintro ⟨-, -, h3, -⟩
        exact h3 hlen
      case isFalse hlen =>
        simp only [queueOf, lookup_enqueue]
        by_cases hx : x = l
        · subst hx
          rw [if_pos rfl, if_pos ⟨hrun', hl', hlen, rfl⟩]
          have : (st.queues.lookup x).isSome = true := hl'
          cases hq : st.queues.lookup x
          · rw [hq] at this
            exact Bool.noConfusion this
          · simp
        · rw [if_neg hx, if_neg (by rintro ⟨-, -, -, h⟩; exact hx h)]

/-- Effect of `push_audio_multiple` on one language's queue: exactly the
non-empty audio arrays pushed under that language's key are appended, in
order, when the streamer is running and knows the language; otherwise the
queue is untouched. -/
lemma queueOf_pushAudioMultiple :
    ∀ (dict : List (String × List ℤ)) (st : Streamer) (lang : String),
      queueOf (pushAudioMultiple st dict) lang =
        queueOf st lang ++
          (if st.running = true ∧ hasLang st lang = true then
            dict.filterMap fun p =>
              if p.1 = lang ∧ p.2.length ≠ 0 then some p.2 else none
          else []) := by
  intro dict
  induction dict with
  | nil =>
      intro st lang
      simp only [pushAudioMultiple, List.foldl_nil, List.filterMap_nil]
      split <;> simp
  | cons p dict ih =>
      intro st lang
      have hstep : pushAudioMultiple st (p :: dict) =
          pushAudioMultiple (pushAudio st p.1 p.2) dict := rfl
      rw [hstep, ih, pushAudio_running, hasLang_pushAudio, queueOf_pushAudio]
      by_cases hpl : p.1 = lang
      · by_cases hrun : st.running = true <;>
        by_cases hl : hasLang st lang = true <;>
        by_cases hlen : p.2 = [] <;>
          simp [hpl, hrun, hl, hlen, List.filterMap_cons]
      · have hpl' : ¬lang = p.1 := fun h => hpl h.symm
        by_cases hrun : st.running = true <;>
        by_cases hl : hasLang st lang = true <;>
          simp [hpl, hpl', hrun, hl, List.filterMap_cons]

/-- C8 as amended.  The synthesis stage's entire output for a language is
the audio payloads of its own successful syntheses: one `Payload.audio` per
entry of that language whose text is non-empty and whose synthesis (no
speaker profile is passed by `_process_tts`) returned a non-empty array.
Consequences read off this characterization: a language whose generic
backend fails (empty synthesis) gets no delivery at all — no audio and no
text payload either, since the stage delivers text nowhere — the failure is
silent and non-fatal, and the deliveries of every other language are
unaffected, each language's deliveries depending only on its own entries. -/
theorem synthesis_stage_deliveries {α : Type} (env : TTSEnv α) (st : Streamer)
    (translations : List (String × String)) (lang : String) :
    stageDeliveries env st translations lang =
      if st.running = true ∧ hasLang st lang = true then
        translations.filterMap fun p =>
          if p.1 = lang ∧ p.2 ≠ "" ∧
              (synthesize env p.2 p.1 (none : Option α)).length ≠ 0
          then some (Payload.audio (synthesize env p.2 p.1 none)) else none
      else [] := by
  unfold stageDeliveries processTTS
  rw [queueOf_pushAudioMultiple, List.drop_left]
  split
  · unfold synthesizeMultiple
    rw [List.filterMap_filterMap, List.map_filterMap]
    congr 1
    funext p
    by_cases htext : p.2 = ""
    · simp [htext]
    · by_cases hlen : (synthesize env p.2 p.1 (none : Option α)).length = 0 <;>
      by_cases hpl : p.1 = lang <;>
        simp [htext, hlen, hpl, apply_ite (Option.map Payload.audio)]
  · simp

/-- C8, refuted on the code.  Concrete run: the only configured language is
`"en"`, its translated text is `"hello"`, there is no voice profile, and
the generic Edge backend fails (returns the empty array).  The stage then
delivers nothing at all for `"en"`: no audio — the empty array is filtered
out by `push_audio` — and no text payload either, because `_process_tts`
pushes only audio; the translated text is never delivered anywhere, contrary
to the claim that text delivery still happens when audio fails. -/
theorem synthesis_failed_language_gets_no_delivery :
    synthesize envGenericDown "hello" "en" (none : Option String) = [] ∧
      stageDeliveries envGenericDown streamerEn [("en", "hello")] "en" = [] ∧
      Payload.text "hello" ∉
        stageDeliveries envGenericDown streamerEn [("en", "hello")] "en" := by
  refine ⟨?_, ?_, ?_⟩ <;> decide

end LiveTranslate
